import Mathlib

/-!
Verification of the competitor-analysis backend (multi-agent workflow).

This file gives a shallow embedding, in Lean 4, of the parts of the Python
backend that the verified properties talk about:

* the Pydantic data model of `models/agent_state.py` and `models/analysis.py`
  (datetime fields are omitted; `Dict[str, Any]` payloads that the embedded
  code only stores and never reads are modelled as string key/value lists);
* the routing functions and the two workflow graphs of
  `agents/coordinator.py` (`_build_workflow`, `_build_workflow_with_checkpointer`);
* the quality scoring of `agents/quality_agent.py` (Python float literals are
  modelled as exact rationals);
* the batched competitor extraction of `agents/search_agent.py` (the LLM call
  is an oracle parameter);
* the TTL caching of `services/redis_service.py` (the redis client is an
  oracle parameter, exceptions are `Except` values);
* the constructor arity of `CompetitorAnalysisCoordinator.__init__`
  (Python positional-argument binding is modelled explicitly).
-/

/-- Whether the second character list is an initial segment of the first. -/
def listStartsWith : List Char → List Char → Bool
  | _, [] => true
  | [], _ :: _ => false
  | a :: as, b :: bs => a == b && listStartsWith as bs

/-- Whether the second character list occurs contiguously in the first. -/
def listContainsSeq : List Char → List Char → Bool
  | [], pat => pat.isEmpty
  | a :: t, pat => listStartsWith (a :: t) pat || listContainsSeq t pat

/-- Python `needle in haystack` on strings (substring test).
An empty needle is contained in every string, as in Python. -/
def strContains (haystack needle : String) : Bool :=
  listContainsSeq haystack.data needle.data

/-- Python `str.lower()`, modelled characterwise (the embedded code only
compares ASCII company names and keywords). -/
def pyLower (s : String) : String :=
  ⟨s.data.map Char.toLower⟩

/-- Python truthiness of an `Optional[str]` value: `None` and `""` are falsy. -/
def truthyStrOpt : Option String → Bool
  | none => false
  | some s => s != ""

/-- Python truthiness of an `Optional[int]` value: `None` and `0` are falsy. -/
def truthyIntOpt : Option Int → Bool
  | none => false
  | some n => n != 0

/-- `models/agent_state.py QualityIssue` (Pydantic model).
`additional_params : Dict[str, Any]` is only stored, never read, by the
embedded code; it is modelled as a list of string key/value pairs. -/
structure QualityIssue where
  issue_type : String
  severity : String
  description : String
  affected_competitors : List String
  suggested_action : String
  retry_agent : Option String
  additional_params : List (String × String)
deriving DecidableEq

/-- `models/agent_state.py HumanReviewDecision`.
The `timestamp` datetime field is omitted (never read by the embedded code).
`modified_params : Dict[str, Any]` is modelled as string key/value pairs. -/
structure HumanReviewDecision where
  decision : String
  feedback : Option String
  modified_params : List (String × String)
  selected_issues : List String
deriving DecidableEq

/-- `models/agent_state.py AgentRetryContext`.
`retry_history` entries are dicts written by `record_retry` and never read;
they are modelled as string key/value lists. -/
structure AgentRetryContext where
  retry_count : Nat
  max_retries : Nat
  quality_feedback : List QualityIssue
  last_retry_agent : Option String
  retry_history : List (List (String × String))
  awaiting_human_review : Bool
  human_decision : Option HumanReviewDecision
deriving DecidableEq

/-- The Pydantic defaults of `AgentRetryContext`
(`retry_count=0`, `max_retries=2`, empty feedback and history). -/
def defaultRetryContext : AgentRetryContext :=
  { retry_count := 0, max_retries := 2, quality_feedback := [],
    last_retry_agent := none, retry_history := [],
    awaiting_human_review := false, human_decision := none }

/-- `models/agent_state.py AnalysisContext`.
`max_competitors` is a Pydantic `int` with default 10; it is modelled as a
natural number (the embedded code only multiplies and compares it).
`quality_requirements : Dict[str, Any]` is modelled as string pairs. -/
structure AnalysisContext where
  client_company : String
  industry : String
  target_market : String
  business_model : String
  specific_requirements : Option String
  max_competitors : Nat
  comparison_type : String
  client_product : Option String
  product_category : Option String
  comparison_criteria : List String
  search_keywords : List String
  excluded_domains : List String
  data_sources : List String
  quality_requirements : List (String × String)
deriving DecidableEq

/-- `models/analysis.py CompetitorData`, restricted to the fields that the
embedded functions read (`_calculate_*_score`, `_infer_market_position`).
The remaining Pydantic fields (headquarters, employee_count, pricing data,
product fields, ...) are never read by the embedded code and are omitted.
`recent_news` entries are dicts; only their presence is ever tested. -/
structure CompetitorData where
  name : String
  website : Option String
  description : String
  business_model : String
  target_market : String
  founding_year : Option Int
  key_products : List String
  market_position : Option String
  strengths : List String
  recent_news : List (List (String × String))
deriving DecidableEq

/-- `models/agent_state.py AgentState`, restricted to the fields read or
written by the embedded functions. Quality scores are a Python dict from
competitor name to float, modelled as an association list with exact
rational values; datetime fields are omitted. -/
structure AgentState where
  request_id : String
  analysis_context : AnalysisContext
  current_stage : String
  completed_stages : List String
  discovered_competitors : List String
  competitor_data : List CompetitorData
  quality_scores : List (String × ℚ)
  errors : List String
  warnings : List String
  progress : Nat
  status : String
  retry_context : AgentRetryContext
deriving DecidableEq

/-- Python dict assignment `d[k] = v`: replace the value in place when the
key exists, append the pair at the end otherwise (insertion order kept). -/
def dictSet (l : List (String × ℚ)) (k : String) (v : ℚ) : List (String × ℚ) :=
  if l.any (fun p => p.1 == k) then
    l.map (fun p => if p.1 = k then (k, v) else p)
  else l ++ [(k, v)]

/-- `AgentState.set_quality_score`: `self.quality_scores[competitor_name] = score`
(the `updated_at` timestamp write is omitted). -/
def AgentState.set_quality_score (s : AgentState) (name : String) (score : ℚ) : AgentState :=
  { s with quality_scores := dictSet s.quality_scores name score }

/-- `AgentState.get_critical_quality_issues`: issues with severity in
`['critical', 'high']`. -/
def AgentState.get_critical_quality_issues (s : AgentState) : List QualityIssue :=
  s.retry_context.quality_feedback.filter
    (fun issue => issue.severity == "critical" || issue.severity == "high")

/-- `AgentState.get_all_quality_issues_for_review`: critical/high issues, and
medium issues whose type is in
`['overall_quality_low', 'recommendations_quality', 'analysis_depth']`. -/
def AgentState.get_all_quality_issues_for_review (s : AgentState) : List QualityIssue :=
  s.retry_context.quality_feedback.filter
    (fun issue =>
      issue.severity == "critical" || issue.severity == "high" ||
      (issue.severity == "medium" &&
        (issue.issue_type == "overall_quality_low" ||
         issue.issue_type == "recommendations_quality" ||
         issue.issue_type == "analysis_depth")))

/-- `AgentState.has_critical_issues_needing_review`:
`len(self.get_all_quality_issues_for_review()) > 0`. -/
def AgentState.has_critical_issues_needing_review (s : AgentState) : Bool :=
  decide (0 < s.get_all_quality_issues_for_review.length)

/-- `AgentState.set_human_decision`: records the decision and clears the
`awaiting_human_review` flag. -/
def AgentState.set_human_decision (s : AgentState) (d : HumanReviewDecision) : AgentState :=
  { s with retry_context :=
      { s.retry_context with human_decision := some d, awaiting_human_review := false } }

/-- `AgentState.get_human_decision`. -/
def AgentState.get_human_decision (s : AgentState) : Option HumanReviewDecision :=
  s.retry_context.human_decision

/-- `AgentState.is_awaiting_human_review`. -/
def AgentState.is_awaiting_human_review (s : AgentState) : Bool :=
  s.retry_context.awaiting_human_review

/-- `AgentState.clear_quality_feedback`. -/
def AgentState.clear_quality_feedback (s : AgentState) : AgentState :=
  { s with retry_context := { s.retry_context with quality_feedback := [] } }

/-- `setattr(self.analysis_context, key, value)` for the `modify_params`
branch of `apply_human_decision`, guarded by `hasattr`. Only the
string-typed context fields are modelled (the parameter dict is modelled as
string key/value pairs); unknown attribute names leave the context
unchanged, as the `hasattr` guard does. -/
def AnalysisContext.setParam (c : AnalysisContext) (kv : String × String) : AnalysisContext :=
  match kv.1 with
  | "client_company" => { c with client_company := kv.2 }
  | "industry" => { c with industry := kv.2 }
  | "target_market" => { c with target_market := kv.2 }
  | "business_model" => { c with business_model := kv.2 }
  | "specific_requirements" => { c with specific_requirements := some kv.2 }
  | "comparison_type" => { c with comparison_type := kv.2 }
  | _ => c

/-- `AgentState.apply_human_decision`: applies `modified_params` on a
`modify_params` decision; on `proceed`/`retry_search`/`retry_analysis`
removes the selected issues from the quality feedback (all of it when no
issues were selected). Returns the state unchanged when no decision is
recorded. -/
def AgentState.apply_human_decision (s : AgentState) : AgentState :=
  match s.retry_context.human_decision with
  | none => s
  | some d =>
    let s1 :=
      if d.decision = "modify_params" then
        { s with analysis_context := d.modified_params.foldl AnalysisContext.setParam s.analysis_context }
      else s
    if d.decision = "proceed" ∨ d.decision = "retry_search" ∨ d.decision = "retry_analysis" then
      if d.selected_issues ≠ [] then
        let fb := s1.retry_context.quality_feedback.filter
          (fun issue => !d.selected_issues.contains issue.issue_type)
        { s1 with retry_context := { s1.retry_context with quality_feedback := fb } }
      else s1.clear_quality_feedback
    else s1

/-! ## The workflow graphs of `agents/coordinator.py` -/

/-- The LangGraph `END` sentinel vertex. -/
def END : String := "__end__"

/-- `route_after_search` (identical in `_build_workflow` and
`_build_workflow_with_checkpointer`). -/
def route_after_search (s : AgentState) : String :=
  if s.status = "failed" then "END" else "analysis"

/-- `route_after_analysis` (identical in both builders). -/
def route_after_analysis (s : AgentState) : String :=
  if s.status = "failed" then "END" else "llm_quality"

/-- `route_after_quality` (identical in both builders). -/
def route_after_quality (s : AgentState) : String :=
  if s.status = "failed" then "END"
  else if s.has_critical_issues_needing_review then "human_review"
  else "report"

/-- `route_after_human_review`. The closure in
`_build_workflow_with_checkpointer` additionally mutates the state via
`_apply_selected_quality_feedback` on the two retry branches; the returned
label, which is all the graph consumes, is identical in both builders. -/
def route_after_human_review (s : AgentState) : String :=
  if s.status = "failed" then "END"
  else
    match s.get_human_decision with
    | none => "human_review"
    | some d =>
      if d.decision = "abort" then "END"
      else if d.decision = "retry_search" then "retry_search"
      else if d.decision = "retry_analysis" then "retry_analysis"
      else if d.decision = "proceed" ∨ d.decision = "modify_params" then "report"
      else "report"

/-- A LangGraph `StateGraph` as the coordinator uses it: named nodes, an
entry point, conditional edges (a router plus a label-to-target map per
source node) and unconditional edges. -/
structure StateGraph where
  nodes : List String
  entry_point : Option String
  conditional_edges : List (String × (AgentState → String) × List (String × String))
  plain_edges : List (String × String)

def StateGraph.empty : StateGraph := ⟨[], none, [], []⟩

def StateGraph.add_node (g : StateGraph) (name : String) : StateGraph :=
  { g with nodes := g.nodes ++ [name] }

def StateGraph.set_entry_point (g : StateGraph) (name : String) : StateGraph :=
  { g with entry_point := some name }

def StateGraph.add_conditional_edges (g : StateGraph) (src : String)
    (router : AgentState → String) (mapping : List (String × String)) : StateGraph :=
  { g with conditional_edges := g.conditional_edges ++ [(src, router, mapping)] }

def StateGraph.add_edge (g : StateGraph) (src tgt : String) : StateGraph :=
  { g with plain_edges := g.plain_edges ++ [(src, tgt)] }

/-- `CompetitorAnalysisCoordinator._build_workflow`, statement for statement
(the commented-out `quality` node of the source is likewise absent). -/
def build_workflow : StateGraph :=
  StateGraph.empty
  |>.add_node "search"
  |>.add_node "analysis"
  |>.add_node "llm_quality"
  |>.add_node "human_review"
  |>.add_node "report"
  |>.set_entry_point "search"
  |>.add_conditional_edges "search" route_after_search
      [("analysis", "analysis"), ("END", END)]
  |>.add_conditional_edges "analysis" route_after_analysis
      [("llm_quality", "llm_quality"), ("END", END)]
  |>.add_conditional_edges "llm_quality" route_after_quality
      [("human_review", "human_review"), ("report", "report"), ("END", END)]
  |>.add_conditional_edges "human_review" route_after_human_review
      [("report", "report"), ("retry_search", "search"),
       ("retry_analysis", "analysis"), ("human_review", "human_review"), ("END", END)]
  |>.add_edge "report" END

/-- `CompetitorAnalysisCoordinator._build_workflow_with_checkpointer`.
Note: its `human_review` conditional-edge map has no `"human_review"` key,
unlike `_build_workflow`. -/
def build_workflow_with_checkpointer : StateGraph :=
  StateGraph.empty
  |>.add_node "search"
  |>.add_node "analysis"
  |>.add_node "llm_quality"
  |>.add_node "human_review"
  |>.add_node "report"
  |>.set_entry_point "search"
  |>.add_conditional_edges "search" route_after_search
      [("analysis", "analysis"), ("END", END)]
  |>.add_conditional_edges "analysis" route_after_analysis
      [("llm_quality", "llm_quality"), ("END", END)]
  |>.add_conditional_edges "llm_quality" route_after_quality
      [("human_review", "human_review"), ("report", "report"), ("END", END)]
  |>.add_conditional_edges "human_review" route_after_human_review
      [("report", "report"), ("retry_search", "search"),
       ("retry_analysis", "analysis"), ("END", END)]
  |>.add_edge "report" END

/-- The conditional edges registered for a source node (each node of these
graphs has at most one `add_conditional_edges` call). -/
def StateGraph.condEdge (g : StateGraph) (src : String) :
    Option ((AgentState → String) × List (String × String)) :=
  g.conditional_edges.lookup src

/-- The vertex the graph moves to from `src` in state `s`: the router label
resolved through the label map, or the unconditional edge, or nothing when
the label has no entry in the map. -/
def StateGraph.stepTarget (g : StateGraph) (src : String) (s : AgentState) : Option String :=
  match g.condEdge src with
  | some (router, mapping) => mapping.lookup (router s)
  | none => g.plain_edges.lookup src

/-- `src` can move to `tgt` in some state whose status is not `"failed"`. -/
def nonFailedStep (g : StateGraph) (src tgt : String) : Prop :=
  ∃ s : AgentState, s.status ≠ "failed" ∧ g.stepTarget src s = some tgt

/-- Position of each stage in the pipeline order (unknown names sort last). -/
def stageIdx : String → Nat
  | "search" => 0
  | "analysis" => 1
  | "llm_quality" => 2
  | "human_review" => 3
  | "report" => 4
  | "__end__" => 5
  | _ => 6

/-! ## Quality scoring (`agents/quality_agent.py`) -/

/-- `QualityAgent.__init__`: `self.min_quality_threshold = 0.3`. -/
def min_quality_threshold : ℚ := 3/10

/-- `QualityAgent.__init__`: the `self.quality_weights` dict. -/
structure QualityWeights where
  data_completeness : ℚ
  data_accuracy : ℚ
  relevance_score : ℚ
  recency_score : ℚ

/-- The weights `{0.3, 0.25, 0.25, 0.2}`, as exact rationals. -/
def quality_weights : QualityWeights :=
  { data_completeness := 3/10, data_accuracy := 1/4,
    relevance_score := 1/4, recency_score := 1/5 }

/-- The per-field test of `_calculate_completeness_score`:
`field and field != "Unknown" and field != ""` (truthiness already rules
out `None` and the empty string). -/
def fieldFilled : Option String → Bool
  | none => false
  | some s => s != "" && s != "Unknown"

/-- `QualityAgent._calculate_completeness_score`: filled fraction of the five
basic fields plus bonuses for products, strengths and news, capped at 1. -/
def calculate_completeness_score (c : CompetitorData) : ℚ :=
  let fields : List (Option String) :=
    [some c.name, c.website, some c.description, some c.business_model, some c.target_market]
  let filled : Nat := (fields.filter fieldFilled).length
  let base : ℚ := (filled : ℚ) / (fields.length : ℚ)
  let b1 := if c.key_products ≠ [] then base + 1/10 else base
  let b2 := if c.strengths ≠ [] then b1 + 1/10 else b1
  let b3 := if c.recent_news ≠ [] then b2 + 1/10 else b2
  min b3 1

/-- `QualityAgent._calculate_accuracy_score`: base 0.8, short descriptions
penalised, website and a concrete business model rewarded, capped at 1.
The `state` parameter is unused, as in the source. -/
def calculate_accuracy_score (c : CompetitorData) (state : AgentState) : ℚ :=
  let a0 : ℚ := 4/5
  let a1 := if c.description.length < 50 then a0 - 1/5 else a0
  let a2 := if truthyStrOpt c.website then a1 + 1/10 else a1
  let a3 := if c.business_model ≠ "Unknown" ∧ c.business_model ≠ "" then a2 + 1/10 else a2
  min a3 1

/-- `QualityAgent._calculate_relevance_score`: base 0.5 plus alignment of
industry, target market and business model with the analysis context
(lowercased substring tests), capped at 1. -/
def calculate_relevance_score (c : CompetitorData) (state : AgentState) : ℚ :=
  let context := state.analysis_context
  let r0 : ℚ := 1/2
  let r1 := if strContains (pyLower c.description) (pyLower context.industry) then r0 + 1/5 else r0
  let r2 := if strContains (pyLower c.target_market) (pyLower context.target_market) then r1 + 1/5 else r1
  let r3 := if strContains (pyLower c.business_model) (pyLower context.business_model) then r2 + 1/10 else r2
  min r3 1

/-- `QualityAgent._calculate_recency_score`: base 0.7 plus bonuses for recent
news and a (truthy) founding year, capped at 1. -/
def calculate_recency_score (c : CompetitorData) : ℚ :=
  let r0 : ℚ := 7/10
  let r1 := if c.recent_news ≠ [] then r0 + 1/5 else r0
  let r2 := if truthyIntOpt c.founding_year then r1 + 1/10 else r1
  min r2 1

/-- The weighted overall score computed inside
`QualityAgent._score_and_validate_competitors`. -/
def overall_quality_score (c : CompetitorData) (state : AgentState) : ℚ :=
  calculate_completeness_score c * quality_weights.data_completeness +
  calculate_accuracy_score c state * quality_weights.data_accuracy +
  calculate_relevance_score c state * quality_weights.relevance_score +
  calculate_recency_score c * quality_weights.recency_score

/-- `QualityAgent._score_and_validate_competitors`: scores every competitor,
records the score in `state.quality_scores` and keeps the competitor when
the score reaches `min_quality_threshold`. Returns the kept list and the
updated state (the Python method mutates `state` in place). -/
def score_and_validate_competitors :
    List CompetitorData → AgentState → List CompetitorData × AgentState
  | [], state => ([], state)
  | c :: cs, state =>
    let score := overall_quality_score c state
    let state1 := state.set_quality_score c.name score
    let rest := score_and_validate_competitors cs state1
    (if min_quality_threshold ≤ score then c :: rest.1 else rest.1, rest.2)

/-- `QualityAgent._infer_market_position`: keyword groups over the lowercased
description, checked leader, then emerging, then niche. The `state`
parameter is unused, as in the source. -/
def infer_market_position (c : CompetitorData) (state : AgentState) : String :=
  let description := pyLower c.description
  if ["leading", "largest", "dominant", "#1"].any (fun t => strContains description t) then
    "Market Leader"
  else if ["startup", "founded", "new", "emerging"].any (fun t => strContains description t) then
    "Emerging Player"
  else if ["specialist", "focused", "niche"].any (fun t => strContains description t) then
    "Niche Player"
  else
    "Market Participant"

/-! ## Competitor extraction (`agents/search_agent.py`) -/

/-- A Tavily search result dict; the fields the embedded code reads. -/
structure SearchResult where
  title : String
  url : String
  content : String
deriving DecidableEq

/-- Python `set.add` on a set of strings, modelled as a duplicate-free list
(membership is the only observation the code makes). -/
def setAdd (l : List String) (x : String) : List String :=
  if x ∈ l then l else l ++ [x]

/-- The inner filter of `_extract_competitors_from_results`:
`competitor.lower() != client_company_lower and len(competitor) > 2`. -/
def addCompetitor (clientLower : String) (acc : List String) (comp : String) : List String :=
  if pyLower comp ≠ clientLower ∧ 2 < comp.length then setAdd acc comp else acc

/-- The batch loop of `_extract_competitors_from_results` over the start
indices `range(0, max_results_to_process, 3)`. `extract` is the LLM oracle
(`_llm_extract_competitors_from_batch`). The check
`len(competitors) >= max_competitors * 1.5` is the integer inequality
`3 * maxC ≤ 2 * |acc|`. Besides the competitor set the embedding returns,
for each batch handed to the oracle, the batch and the size of the
accumulated set at that moment (the Python function returns only the set). -/
def extract_competitors_go (extract : List SearchResult → List String)
    (results : List SearchResult) (clientLower : String) (maxC : Nat) :
    List Nat → List String → List String × List (List SearchResult × Nat)
  | [], acc => (acc, [])
  | i :: is, acc =>
    if 3 * maxC ≤ 2 * acc.length then (acc, [])
    else
      let batch := (results.drop i).take 3
      let acc1 := (extract batch).foldl (addCompetitor clientLower) acc
      let rest := extract_competitors_go extract results clientLower maxC is acc1
      (rest.1, (batch, acc.length) :: rest.2)

/-- Python `range(0, n, 3)`. -/
def rangeStep3 (n : Nat) : List Nat :=
  (List.range ((n + 2) / 3)).map (fun j => 3 * j)

/-- `SearchAgent._extract_competitors_from_results` with the LLM call as an
oracle: processes `min(len(results), max_competitors * 3)` results in
batches of 3, stopping once the set holds `1.5 * max_competitors` names. -/
def extract_competitors_from_results (extract : List SearchResult → List String)
    (results : List SearchResult) (context : AnalysisContext) :
    List String × List (List SearchResult × Nat) :=
  let clientLower := pyLower context.client_company
  let maxC := context.max_competitors
  let n := min results.length (maxC * 3)
  extract_competitors_go extract results clientLower maxC (rangeStep3 n) []

/-- Consecutive batches of (up to) three elements, the claim-side reading of
`results[i:i+3]` for `i in range(0, n, 3)`. -/
def chunks3 {α : Type} : List α → List (List α)
  | [] => []
  | a :: rest => (a :: rest.take 2) :: chunks3 (rest.drop 2)
termination_by l => l.length
decreasing_by
  simp only [List.length_cons, List.length_drop]
  omega

/-! ## TTL caching (`services/redis_service.py`) -/

/-- Python `ttl or fallback` on an `Optional[int]`: `None` and `0` are
falsy and fall back. -/
def pyOrTtl (ttl : Option Int) (fallback : Int) : Int :=
  match ttl with
  | some x => if x ≠ 0 then x else fallback
  | none => fallback

/-- One `SETEX key ttl value` command sent to the redis client. -/
structure SetexCall where
  key : String
  ttl : Int
  value : String
deriving DecidableEq

/-- `RedisService.__init__`:
`self.default_ttl = int(os.getenv("DATA_CACHE_TTL_SECONDS", "3600"))`.
The environment variable is modelled as an already-parsed optional integer. -/
def redis_default_ttl (envValue : Option Int) : Int :=
  envValue.getD 3600

/-- `RedisService.set`: serialize to JSON, pick `ttl or self.default_ttl`
(Python `or`: `None` and `0` both fall back to the default), send `SETEX`,
and return `False` instead of raising on any exception. Serialization and
the redis client are oracles returning `Except` values; the second
component records the `SETEX` commands actually sent. -/
def RedisService.set {α : Type} (default_ttl : Int)
    (serialize : α → Except String String)
    (setex : String → Int → String → Except String Bool)
    (key : String) (value : α) (ttl : Option Int) : Bool × List SetexCall :=
  match serialize value with
  | .error _ => (false, [])
  | .ok serialized_value =>
    let t : Int := pyOrTtl ttl default_ttl
    match setex key t serialized_value with
    | .ok r => (r, [⟨key, t, serialized_value⟩])
    | .error _ => (false, [⟨key, t, serialized_value⟩])

/-- `RedisService.cache_agent_state`: key `agent_state:{request_id}` and
`ttl = ttl or 86400` (24 hours) before delegating to `set`. -/
def RedisService.cache_agent_state {α : Type} (default_ttl : Int)
    (serialize : α → Except String String)
    (setex : String → Int → String → Except String Bool)
    (request_id : String) (state : α) (ttl : Option Int) : Bool × List SetexCall :=
  let key := "agent_state:" ++ request_id
  let t : Int := pyOrTtl ttl 86400
  RedisService.set default_ttl serialize setex key state (some t)

/-! ## Coordinator construction (`CompetitorAnalysisCoordinator.__init__`) -/

/-- A Python callable signature: required positional parameters and
parameters that carry defaults. -/
structure PySignature where
  required : List String
  withDefault : List String

/-- CPython positional-argument binding: a call with fewer arguments than
required parameters, or more than all parameters, raises `TypeError`. -/
def bindPositional {α : Type} (sig : PySignature) (args : List α) : Except String Unit :=
  if sig.required.length ≤ args.length ∧
      args.length ≤ sig.required.length + sig.withDefault.length then
    .ok ()
  else
    .error "TypeError"

/-- `SearchAgent.__init__(self, tavily_service, redis_service, llm_service)`:
three required parameters, no defaults. -/
def searchAgentInitSig : PySignature := ⟨["tavily_service", "redis_service", "llm_service"], []⟩

/-- `AnalysisAgent.__init__(self, llm_service, tavily_service, redis_service)`. -/
def analysisAgentInitSig : PySignature := ⟨["llm_service", "tavily_service", "redis_service"], []⟩

/-- `QualityAgent.__init__(self, redis_service)`. -/
def qualityAgentInitSig : PySignature := ⟨["redis_service"], []⟩

/-- `LLMQualityAgent.__init__(self, llm_service, redis_service)`. -/
def llmQualityAgentInitSig : PySignature := ⟨["llm_service", "redis_service"], []⟩

/-- `ReportAgent.__init__(self, llm_service, redis_service, report_repository=None)`. -/
def reportAgentInitSig : PySignature := ⟨["llm_service", "redis_service"], ["report_repository"]⟩

/-- `CompetitorAnalysisCoordinator.__init__`: constructs the five agents in
source order, then builds the workflow (`self.workflow = self._build_workflow()`
is the last statement). The first constructor call that raises aborts the
whole initializer, so the workflow value is produced only when every call
binds. Service and repository arguments are arbitrary values of any type. -/
def coordinator_init {α : Type} (tavily_service redis_service llm_service
    analysis_repository report_repository : α) : Except String StateGraph := do
  let _ ← bindPositional searchAgentInitSig [tavily_service, redis_service]
  let _ ← bindPositional analysisAgentInitSig [llm_service, tavily_service, redis_service]
  let _ ← bindPositional qualityAgentInitSig [redis_service]
  let _ ← bindPositional llmQualityAgentInitSig [llm_service, redis_service]
  let _ ← bindPositional reportAgentInitSig [llm_service, redis_service, report_repository]
  pure build_workflow

/-! ## Concrete fixtures for witness evaluations -/

/-- A minimal analysis context for concrete evaluations. -/
def demoContext : AnalysisContext :=
  { client_company := "Acme", industry := "fintech", target_market := "smb",
    business_model := "saas", specific_requirements := none, max_competitors := 2,
    comparison_type := "company", client_product := none, product_category := none,
    comparison_criteria := [], search_keywords := [], excluded_domains := [],
    data_sources := [], quality_requirements := [] }

/-- A minimal in-progress agent state. -/
def baseState : AgentState :=
  { request_id := "req-1", analysis_context := demoContext,
    current_stage := "search", completed_stages := [], discovered_competitors := [],
    competitor_data := [], quality_scores := [], errors := [], warnings := [],
    progress := 0, status := "in_progress", retry_context := defaultRetryContext }

/-- A human decision with the given decision string and no selected issues. -/
def mkDecision (d : String) : HumanReviewDecision :=
  { decision := d, feedback := none, modified_params := [], selected_issues := [] }

/-- `baseState` with a recorded human decision. -/
def stateWithDecision (d : String) : AgentState :=
  baseState.set_human_decision (mkDecision d)

/-- A high-severity quality issue, as `_identify_quality_issues` emits it. -/
def demoCriticalIssue : QualityIssue :=
  { issue_type := "insufficient_competitors", severity := "high",
    description := "Only found 1 competitors, expected at least 3",
    affected_competitors := [],
    suggested_action := "Expand search scope and use broader search terms",
    retry_agent := some "search", additional_params := [] }

/-- A second high-severity issue, of a different issue type. -/
def demoCompletenessIssue : QualityIssue :=
  { issue_type := "data_completeness", severity := "high",
    description := "Data completeness issues for 2 competitors",
    affected_competitors := ["Globex", "Initech"],
    suggested_action := "Search for additional data sources and enhance data collection",
    retry_agent := some "search", additional_params := [] }

/-- `baseState` carrying one high-severity quality issue. -/
def stateWithCriticalIssue : AgentState :=
  { baseState with retry_context :=
      { defaultRetryContext with quality_feedback := [demoCriticalIssue] } }

/-- `baseState` carrying two quality issues of distinct issue types. -/
def stateWithTwoIssues : AgentState :=
  { baseState with retry_context :=
      { defaultRetryContext with quality_feedback := [demoCompletenessIssue, demoCriticalIssue] } }

/-- A failed state. -/
def failedState : AgentState := { baseState with status := "failed" }

/-- A data-rich competitor profile. -/
def demoCompetitorA : CompetitorData :=
  { name := "Globex", website := some "https://globex.example",
    description := "Globex is a leading fintech platform for smb payments and lending operations.",
    business_model := "saas", target_market := "smb", founding_year := some 2015,
    key_products := ["payments"], market_position := none,
    strengths := ["Market recognition (leading)"], recent_news := [] }

/-- A nearly empty competitor profile. -/
def demoCompetitorB : CompetitorData :=
  { name := "Initech", website := none, description := "short",
    business_model := "Unknown", target_market := "Unknown", founding_year := none,
    key_products := [], market_position := none, strengths := [], recent_news := [] }

/-- A search result mentioning a single company in its title. -/
def mkResult (company : String) : SearchResult :=
  { title := company, url := "https://example.com/" ++ company,
    content := "About " ++ company }

/-- Eight search results (more than `max_competitors * 3 = 6` for
`demoContext`), including the client company itself and a too-short name. -/
def demoResults : List SearchResult :=
  [mkResult "Globex", mkResult "Initech", mkResult "Acme", mkResult "Umbrella",
   mkResult "Hooli", mkResult "Ab", mkResult "Stark", mkResult "Wayne"]

/-- A concrete extraction oracle: every title in the batch is a candidate. -/
def demoExtract (batch : List SearchResult) : List String :=
  batch.map (fun r => r.title)

/-- A retry decision selecting a single issue type. -/
def demoSelectiveDecision : HumanReviewDecision :=
  { decision := "retry_search", feedback := some "fix completeness",
    modified_params := [], selected_issues := ["data_completeness"] }

/-! ## Helper lemmas: resolved transitions of the two graphs -/

theorem bw_condEdge_search :
    build_workflow.condEdge "search" =
      some (route_after_search, [("analysis", "analysis"), ("END", END)]) := rfl

theorem bw_condEdge_analysis :
    build_workflow.condEdge "analysis" =
      some (route_after_analysis, [("llm_quality", "llm_quality"), ("END", END)]) := rfl

theorem bw_condEdge_quality :
    build_workflow.condEdge "llm_quality" =
      some (route_after_quality,
        [("human_review", "human_review"), ("report", "report"), ("END", END)]) := rfl

theorem bw_condEdge_human_review :
    build_workflow.condEdge "human_review" =
      some (route_after_human_review,
        [("report", "report"), ("retry_search", "search"), ("retry_analysis", "analysis"),
         ("human_review", "human_review"), ("END", END)]) := rfl

theorem cp_condEdge_human_review :
    build_workflow_with_checkpointer.condEdge "human_review" =
      some (route_after_human_review,
        [("report", "report"), ("retry_search", "search"), ("retry_analysis", "analysis"),
         ("END", END)]) := rfl

theorem bw_step_search (s : AgentState) :
    build_workflow.stepTarget "search" s =
      if s.status = "failed" then some END else some "analysis" := by
  by_cases hf : s.status = "failed" <;>
    simp [StateGraph.stepTarget, bw_condEdge_search, route_after_search, hf, List.lookup, END]

theorem bw_step_analysis (s : AgentState) :
    build_workflow.stepTarget "analysis" s =
      if s.status = "failed" then some END else some "llm_quality" := by
  by_cases hf : s.status = "failed" <;>
    simp [StateGraph.stepTarget, bw_condEdge_analysis, route_after_analysis, hf, List.lookup, END]

theorem bw_step_quality (s : AgentState) :
    build_workflow.stepTarget "llm_quality" s =
      if s.status = "failed" then some END
      else if s.has_critical_issues_needing_review then some "human_review"
      else some "report" := by
  by_cases hf : s.status = "failed"
  · simp [StateGraph.stepTarget, bw_condEdge_quality, route_after_quality, hf, List.lookup, END]
  · by_cases hq : s.has_critical_issues_needing_review <;>
      simp [StateGraph.stepTarget, bw_condEdge_quality, route_after_quality, hf, hq, List.lookup, END]

theorem bw_step_human_review (s : AgentState) :
    build_workflow.stepTarget "human_review" s =
      (if s.status = "failed" then some END
       else
         match s.get_human_decision with
         | none => some "human_review"
         | some d =>
           if d.decision = "abort" then some END
           else if d.decision = "retry_search" then some "search"
           else if d.decision = "retry_analysis" then some "analysis"
           else some "report") := by
  by_cases hf : s.status = "failed"
  · simp [StateGraph.stepTarget, bw_condEdge_human_review, route_after_human_review, hf,
      List.lookup, END]
  · rcases hd : s.get_human_decision with _ | d
    · simp [StateGraph.stepTarget, bw_condEdge_human_review, route_after_human_review, hf, hd,
        List.lookup]
    · by_cases h1 : d.decision = "abort"
      · simp [StateGraph.stepTarget, bw_condEdge_human_review, route_after_human_review, hf, hd,
          h1, List.lookup, END]
      · by_cases h2 : d.decision = "retry_search"
        · simp [StateGraph.stepTarget, bw_condEdge_human_review, route_after_human_review, hf,
            hd, h1, h2, List.lookup]
        · by_cases h3 : d.decision = "retry_analysis"
          · simp [StateGraph.stepTarget, bw_condEdge_human_review, route_after_human_review, hf,
              hd, h1, h2, h3, List.lookup]
          · by_cases h4 : d.decision = "proceed" ∨ d.decision = "modify_params" <;>
              simp [StateGraph.stepTarget, bw_condEdge_human_review, route_after_human_review,
                hf, hd, h1, h2, h3, h4, List.lookup]

theorem bw_step_report (s : AgentState) :
    build_workflow.stepTarget "report" s = some END := rfl

theorem cp_step_search (s : AgentState) :
    build_workflow_with_checkpointer.stepTarget "search" s =
      if s.status = "failed" then some END else some "analysis" := by
  by_cases hf : s.status = "failed" <;>
    simp [StateGraph.stepTarget, StateGraph.condEdge, build_workflow_with_checkpointer,
      StateGraph.add_node, StateGraph.add_conditional_edges, StateGraph.set_entry_point,
      StateGraph.add_edge, StateGraph.empty, route_after_search, hf, List.lookup, END]

theorem cp_step_analysis (s : AgentState) :
    build_workflow_with_checkpointer.stepTarget "analysis" s =
      if s.status = "failed" then some END else some "llm_quality" := by
  by_cases hf : s.status = "failed" <;>
    simp [StateGraph.stepTarget, StateGraph.condEdge, build_workflow_with_checkpointer,
      StateGraph.add_node, StateGraph.add_conditional_edges, StateGraph.set_entry_point,
      StateGraph.add_edge, StateGraph.empty, route_after_analysis, hf, List.lookup, END]

theorem cp_step_quality (s : AgentState) :
    build_workflow_with_checkpointer.stepTarget "llm_quality" s =
      if s.status = "failed" then some END
      else if s.has_critical_issues_needing_review then some "human_review"
      else some "report" := by
  by_cases hf : s.status = "failed"
  · simp [StateGraph.stepTarget, StateGraph.condEdge, build_workflow_with_checkpointer,
      StateGraph.add_node, StateGraph.add_conditional_edges, StateGraph.set_entry_point,
      StateGraph.add_edge, StateGraph.empty, route_after_quality, hf, List.lookup, END]
  · by_cases hq : s.has_critical_issues_needing_review <;>
      simp [StateGraph.stepTarget, StateGraph.condEdge, build_workflow_with_checkpointer,
        StateGraph.add_node, StateGraph.add_conditional_edges, StateGraph.set_entry_point,
        StateGraph.add_edge, StateGraph.empty, route_after_quality, hf, hq, List.lookup, END]

theorem cp_step_human_review (s : AgentState) :
    build_workflow_with_checkpointer.stepTarget "human_review" s =
      (if s.status = "failed" then some END
       else
         match s.get_human_decision with
         | none => none
         | some d =>
           if d.decision = "abort" then some END
           else if d.decision = "retry_search" then some "search"
           else if d.decision = "retry_analysis" then some "analysis"
           else some "report") := by
  by_cases hf : s.status = "failed"
  · simp [StateGraph.stepTarget, cp_condEdge_human_review, route_after_human_review, hf,
      List.lookup, END]
  · rcases hd : s.get_human_decision with _ | d
    · simp [StateGraph.stepTarget, cp_condEdge_human_review, route_after_human_review, hf, hd,
        List.lookup]
    · by_cases h1 : d.decision = "abort"
      · simp [StateGraph.stepTarget, cp_condEdge_human_review, route_after_human_review, hf, hd,
          h1, List.lookup, END]
      · by_cases h2 : d.decision = "retry_search"
        · simp [StateGraph.stepTarget, cp_condEdge_human_review, route_after_human_review, hf,
            hd, h1, h2, List.lookup]
        · by_cases h3 : d.decision = "retry_analysis"
          · simp [StateGraph.stepTarget, cp_condEdge_human_review, route_after_human_review, hf,
              hd, h1, h2, h3, List.lookup]
          · by_cases h4 : d.decision = "proceed" ∨ d.decision = "modify_params" <;>
              simp [StateGraph.stepTarget, cp_condEdge_human_review, route_after_human_review,
                hf, hd, h1, h2, h3, h4, List.lookup]

theorem cp_step_report (s : AgentState) :
    build_workflow_with_checkpointer.stepTarget "report" s = some END := rfl

theorem bw_step_src_cases (src : String) (s : AgentState) (tgt : String)
    (h : build_workflow.stepTarget src s = some tgt) :
    src = "search" ∨ src = "analysis" ∨ src = "llm_quality" ∨
      src = "human_review" ∨ src = "report" := by
  by_cases h1 : src = "search"; · exact Or.inl h1
  by_cases h2 : src = "analysis"; · exact Or.inr (Or.inl h2)
  by_cases h3 : src = "llm_quality"; · exact Or.inr (Or.inr (Or.inl h3))
  by_cases h4 : src = "human_review"; · exact Or.inr (Or.inr (Or.inr (Or.inl h4)))
  by_cases h5 : src = "report"; · exact Or.inr (Or.inr (Or.inr (Or.inr h5)))
  exfalso
  have e1 : (src == "search") = false := beq_eq_false_iff_ne.mpr h1
  have e2 : (src == "analysis") = false := beq_eq_false_iff_ne.mpr h2
  have e3 : (src == "llm_quality") = false := beq_eq_false_iff_ne.mpr h3
  have e4 : (src == "human_review") = false := beq_eq_false_iff_ne.mpr h4
  have e5 : (src == "report") = false := beq_eq_false_iff_ne.mpr h5
  simp [StateGraph.stepTarget, StateGraph.condEdge, build_workflow,
    StateGraph.add_node, StateGraph.add_conditional_edges, StateGraph.set_entry_point,
    StateGraph.add_edge, StateGraph.empty, List.lookup, e1, e2, e3, e4, e5] at h

/-- C1 counterexample: in the graph built by `_build_workflow`, a state that
is not failed but carries an `abort` decision moves from `human_review`
forward to `END`, a forward transition missing from the claimed list. -/
theorem c1_counterexample :
    (stateWithDecision "abort").status ≠ "failed" ∧
    build_workflow.stepTarget "human_review" (stateWithDecision "abort") = some END ∧
    stageIdx "human_review" < stageIdx END ∧
    ("human_review", END) ∉
      [("search", "analysis"), ("analysis", "llm_quality"), ("llm_quality", "human_review"),
       ("llm_quality", "report"), ("human_review", "report"), ("report", END)] :=
  ⟨by decide, by decide, by decide, by decide⟩

/-- C1 (amended): the `_build_workflow` graph has exactly the five agent
stages with entry point `search`; for non-failed states the forward
transitions are the five claimed ones plus `human_review → END` on abort,
the only back-edges are the two retry edges (reached exactly on the
`retry_search` and `retry_analysis` decisions), and the only self-loop is
`human_review → human_review` when no decision is recorded. -/
theorem c1_workflow_state_machine :
    build_workflow.nodes = ["search", "analysis", "llm_quality", "human_review", "report"] ∧
    build_workflow.entry_point = some "search" ∧
    (∀ src tgt : String,
      (nonFailedStep build_workflow src tgt ∧ stageIdx src < stageIdx tgt) ↔
        (src, tgt) ∈
          [("search", "analysis"), ("analysis", "llm_quality"),
           ("llm_quality", "human_review"), ("llm_quality", "report"),
           ("human_review", "report"), ("human_review", END), ("report", END)]) ∧
    (∀ src tgt : String,
      (nonFailedStep build_workflow src tgt ∧ stageIdx tgt < stageIdx src) ↔
        (src, tgt) ∈ [("human_review", "search"), ("human_review", "analysis")]) ∧
    (∀ src : String, nonFailedStep build_workflow src src ↔ src = "human_review") ∧
    (∀ s : AgentState, s.status ≠ "failed" →
      ((s.get_human_decision.map HumanReviewDecision.decision = some "retry_search" →
          build_workflow.stepTarget "human_review" s = some "search") ∧
       (s.get_human_decision.map HumanReviewDecision.decision = some "retry_analysis" →
          build_workflow.stepTarget "human_review" s = some "analysis"))) := by
  refine ⟨rfl, rfl, ?_, ?_, ?_, ?_⟩
  · intro src tgt
    constructor
    · rintro ⟨⟨s, hs, hstep⟩, hidx⟩
      rcases bw_step_src_cases src s tgt hstep with h | h | h | h | h <;> subst h
      · rw [bw_step_search, if_neg hs] at hstep
        rw [← Option.some.inj hstep]; decide
      · rw [bw_step_analysis, if_neg hs] at hstep
        rw [← Option.some.inj hstep]; decide
      · rw [bw_step_quality, if_neg hs] at hstep
        split_ifs at hstep <;> rw [← Option.some.inj hstep] <;> decide
      · rw [bw_step_human_review, if_neg hs] at hstep
        rcases hdec : s.get_human_decision with _ | d <;> rw [hdec] at hstep
        · rw [← Option.some.inj hstep] at hidx
          exact absurd hidx (by decide)
        · dsimp only at hstep
          split_ifs at hstep <;> rw [← Option.some.inj hstep] at hidx ⊢ <;>
            first
              | decide
              | exact absurd hidx (by decide)
      · rw [bw_step_report] at hstep
        rw [← Option.some.inj hstep]; decide
    · intro hmem
      simp only [List.mem_cons, List.not_mem_nil, or_false, Prod.mk.injEq] at hmem
      rcases hmem with ⟨h1, h2⟩ | ⟨h1, h2⟩ | ⟨h1, h2⟩ | ⟨h1, h2⟩ | ⟨h1, h2⟩ | ⟨h1, h2⟩ | ⟨h1, h2⟩ <;>
        subst h1 <;> subst h2
      · exact ⟨⟨baseState, by decide, by decide⟩, by decide⟩
      · exact ⟨⟨baseState, by decide, by decide⟩, by decide⟩
      · exact ⟨⟨stateWithCriticalIssue, by decide, by decide⟩, by decide⟩
      · exact ⟨⟨baseState, by decide, by decide⟩, by decide⟩
      · exact ⟨⟨stateWithDecision "proceed", by decide, by decide⟩, by decide⟩
      · exact ⟨⟨stateWithDecision "abort", by decide, by decide⟩, by decide⟩
      · exact ⟨⟨baseState, by decide, by decide⟩, by decide⟩
  · intro src tgt
    constructor
    · rintro ⟨⟨s, hs, hstep⟩, hidx⟩
      rcases bw_step_src_cases src s tgt hstep with h | h | h | h | h <;> subst h
      · rw [bw_step_search, if_neg hs] at hstep
        rw [← Option.some.inj hstep] at hidx; exact absurd hidx (by decide)
      · rw [bw_step_analysis, if_neg hs] at hstep
        rw [← Option.some.inj hstep] at hidx; exact absurd hidx (by decide)
      · rw [bw_step_quality, if_neg hs] at hstep
        split_ifs at hstep <;> rw [← Option.some.inj hstep] at hidx <;>
          exact absurd hidx (by decide)
      · rw [bw_step_human_review, if_neg hs] at hstep
        rcases hdec : s.get_human_decision with _ | d <;> rw [hdec] at hstep
        · rw [← Option.some.inj hstep] at hidx
          exact absurd hidx (by decide)
        · dsimp only at hstep
          split_ifs at hstep <;> rw [← Option.some.inj hstep] at hidx ⊢ <;>
            first
              | decide
              | exact absurd hidx (by decide)
      · rw [bw_step_report] at hstep
        rw [← Option.some.inj hstep] at hidx; exact absurd hidx (by decide)
    · intro hmem
      simp only [List.mem_cons, List.not_mem_nil, or_false, Prod.mk.injEq] at hmem
      rcases hmem with ⟨h1, h2⟩ | ⟨h1, h2⟩ <;> subst h1 <;> subst h2
      · exact ⟨⟨stateWithDecision "retry_search", by decide, by decide⟩, by decide⟩
      · exact ⟨⟨stateWithDecision "retry_analysis", by decide, by decide⟩, by decide⟩
  · intro src
    constructor
    · rintro ⟨s, hs, hstep⟩
      rcases bw_step_src_cases src s src hstep with h | h | h | h | h <;> subst h
      · rw [bw_step_search, if_neg hs] at hstep
        exact absurd (Option.some.inj hstep) (by decide)
      · rw [bw_step_analysis, if_neg hs] at hstep
        exact absurd (Option.some.inj hstep) (by decide)
      · rw [bw_step_quality, if_neg hs] at hstep
        split_ifs at hstep <;> exact absurd (Option.some.inj hstep) (by decide)
      · rfl
      · rw [bw_step_report] at hstep
        exact absurd (Option.some.inj hstep) (by decide)
    · intro h
      subst h
      exact ⟨baseState, by decide, by decide⟩
  · intro s hs
    refine ⟨?_, ?_⟩ <;> intro hmap
    · rcases hdec : s.get_human_decision with _ | d
      · rw [hdec] at hmap; exact absurd hmap (by simp)
      · rw [hdec] at hmap
        have hd : d.decision = "retry_search" := by simpa using hmap
        rw [bw_step_human_review, if_neg hs, hdec]
        simp [hd]
    · rcases hdec : s.get_human_decision with _ | d
      · rw [hdec] at hmap; exact absurd hmap (by simp)
      · rw [hdec] at hmap
        have hd : d.decision = "retry_analysis" := by simpa using hmap
        rw [bw_step_human_review, if_neg hs, hdec]
        simp [hd]

/-- C4: evaluation of the human-review routing on states covering every
decision kind, in both graphs. The final two conjuncts exhibit the
divergence: the `"human_review"` label returned when no decision is
recorded has an edge in the `_build_workflow` graph but none in the
`_build_workflow_with_checkpointer` graph (its label map lacks the key), so
the no-decision step is `none` there. -/
theorem c4_human_review_decision_routing :
    route_after_human_review (stateWithDecision "abort") = "END" ∧
    build_workflow.stepTarget "human_review" (stateWithDecision "abort") = some END ∧
    build_workflow.stepTarget "human_review" (stateWithDecision "retry_search") = some "search" ∧
    build_workflow_with_checkpointer.stepTarget "human_review" (stateWithDecision "retry_search")
      = some "search" ∧
    build_workflow.stepTarget "human_review" (stateWithDecision "retry_analysis")
      = some "analysis" ∧
    build_workflow_with_checkpointer.stepTarget "human_review" (stateWithDecision "retry_analysis")
      = some "analysis" ∧
    build_workflow.stepTarget "human_review" (stateWithDecision "proceed") = some "report" ∧
    build_workflow.stepTarget "human_review" (stateWithDecision "modify_params") = some "report" ∧
    build_workflow.stepTarget "human_review" (stateWithDecision "escalate") = some "report" ∧
    baseState.get_human_decision = none ∧
    route_after_human_review baseState = "human_review" ∧
    build_workflow.stepTarget "human_review" baseState = some "human_review" ∧
    (build_workflow.condEdge "human_review").map (fun e => e.2.lookup "human_review")
      = some (some "human_review") ∧
    (build_workflow_with_checkpointer.condEdge "human_review").map
        (fun e => e.2.lookup "human_review") = some none ∧
    build_workflow_with_checkpointer.stepTarget "human_review" baseState = none := by
  refine ⟨by decide, by decide, by decide, by decide, by decide, by decide, by decide, by decide,
    by decide, by decide, by decide, by decide, ?_, ?_, by decide⟩
  · rw [bw_condEdge_human_review]; decide
  · rw [cp_condEdge_human_review]; decide

/-- C5: every routing function sends a failed state to `"END"`, and from
every agent node of either graph a failed state steps to the END vertex,
never to another agent node. -/
theorem c5_failed_state_never_proceeds (s : AgentState) (h : s.status = "failed") :
    route_after_search s = "END" ∧ route_after_analysis s = "END" ∧
    route_after_quality s = "END" ∧ route_after_human_review s = "END" ∧
    (∀ src ∈ build_workflow.nodes, build_workflow.stepTarget src s = some END) ∧
    (∀ src ∈ build_workflow_with_checkpointer.nodes,
      build_workflow_with_checkpointer.stepTarget src s = some END) := by
  refine ⟨by simp [route_after_search, h], by simp [route_after_analysis, h],
    by simp [route_after_quality, h], by simp [route_after_human_review, h], ?_, ?_⟩
  · intro src hsrc
    rw [show build_workflow.nodes =
      ["search", "analysis", "llm_quality", "human_review", "report"] from rfl] at hsrc
    simp only [List.mem_cons, List.not_mem_nil, or_false] at hsrc
    rcases hsrc with h1 | h1 | h1 | h1 | h1 <;> subst h1
    · rw [bw_step_search, if_pos h]
    · rw [bw_step_analysis, if_pos h]
    · rw [bw_step_quality, if_pos h]
    · rw [bw_step_human_review, if_pos h]
    · exact bw_step_report s
  · intro src hsrc
    rw [show build_workflow_with_checkpointer.nodes =
      ["search", "analysis", "llm_quality", "human_review", "report"] from rfl] at hsrc
    simp only [List.mem_cons, List.not_mem_nil, or_false] at hsrc
    rcases hsrc with h1 | h1 | h1 | h1 | h1 <;> subst h1
    · rw [cp_step_search, if_pos h]
    · rw [cp_step_analysis, if_pos h]
    · rw [cp_step_quality, if_pos h]
    · rw [cp_step_human_review, if_pos h]
    · exact cp_step_report s

/-- Witness for C5: the concrete failed state routes to `"END"` everywhere. -/
theorem c5_witness :
    failedState.status = "failed" ∧ route_after_search failedState = "END" ∧
      build_workflow.stepTarget "llm_quality" failedState = some END := by
  have h := c5_failed_state_never_proceeds failedState (by decide)
  exact ⟨by decide, h.1, h.2.2.2.2.1 "llm_quality" (by decide)⟩

/-- The review condition behind the quality routing: the feedback holds a
critical or high issue, or a medium issue of one of the three significant
types. -/
theorem has_critical_iff (s : AgentState) :
    s.has_critical_issues_needing_review = true ↔
      ∃ issue ∈ s.retry_context.quality_feedback,
        issue.severity = "critical" ∨ issue.severity = "high" ∨
          (issue.severity = "medium" ∧
            (issue.issue_type = "overall_quality_low" ∨
             issue.issue_type = "recommendations_quality" ∨
             issue.issue_type = "analysis_depth")) := by
  simp [AgentState.has_critical_issues_needing_review,
    AgentState.get_all_quality_issues_for_review, List.length_pos_iff_exists_mem,
    List.mem_filter, Bool.or_eq_true, Bool.and_eq_true, beq_iff_eq, and_assoc, or_assoc]

/-- C3: after the `llm_quality` stage a non-failed state routes to
`human_review` exactly when the quality feedback holds a critical or high
severity issue or a medium issue of one of the three significant types;
otherwise it routes to `report`. -/
theorem c3_route_after_quality_iff (s : AgentState) (h : s.status ≠ "failed") :
    (route_after_quality s = "human_review" ↔
      ∃ issue ∈ s.retry_context.quality_feedback,
        issue.severity = "critical" ∨ issue.severity = "high" ∨
          (issue.severity = "medium" ∧
            (issue.issue_type = "overall_quality_low" ∨
             issue.issue_type = "recommendations_quality" ∨
             issue.issue_type = "analysis_depth"))) ∧
    (route_after_quality s = "report" ↔
      ¬ ∃ issue ∈ s.retry_context.quality_feedback,
        issue.severity = "critical" ∨ issue.severity = "high" ∨
          (issue.severity = "medium" ∧
            (issue.issue_type = "overall_quality_low" ∨
             issue.issue_type = "recommendations_quality" ∨
             issue.issue_type = "analysis_depth"))) := by
  have hr : route_after_quality s =
      if s.has_critical_issues_needing_review then "human_review" else "report" := by
    simp [route_after_quality, h]
  by_cases hq : s.has_critical_issues_needing_review
  · have hex := (has_critical_iff s).mp hq
    rw [hr, if_pos hq]
    exact ⟨⟨fun _ => hex, fun _ => rfl⟩,
      ⟨fun hcontr => absurd hcontr (by decide), fun hn => absurd hex hn⟩⟩
  · have hnex := fun hex => hq ((has_critical_iff s).mpr hex)
    rw [hr, if_neg hq]
    exact ⟨⟨fun hcontr => absurd hcontr (by decide), fun hex => absurd hex hnex⟩,
      ⟨fun _ => hnex, fun _ => rfl⟩⟩

/-- Witness for C3: a state carrying one high-severity issue routes to
human review. -/
theorem c3_witness :
    stateWithCriticalIssue.status ≠ "failed" ∧
      route_after_quality stateWithCriticalIssue = "human_review" :=
  ⟨by decide, ((c3_route_after_quality_iff stateWithCriticalIssue (by decide)).1).mpr
    ⟨demoCriticalIssue, by decide, by decide⟩⟩

/-- C10: recording a `proceed`/`retry_search`/`retry_analysis` decision and
applying it clears all quality feedback when no issues are selected (so
nothing needs review and the state is not awaiting review afterwards), and
with a non-empty selection removes exactly the issues whose type is
selected. -/
theorem c10_apply_human_decision (s : AgentState) (d : HumanReviewDecision)
    (hd : d.decision = "proceed" ∨ d.decision = "retry_search" ∨ d.decision = "retry_analysis") :
    (d.selected_issues = [] →
      ((s.set_human_decision d).apply_human_decision).retry_context.quality_feedback = [] ∧
      ((s.set_human_decision d).apply_human_decision).has_critical_issues_needing_review
        = false ∧
      ((s.set_human_decision d).apply_human_decision).is_awaiting_human_review = false) ∧
    (d.selected_issues ≠ [] →
      ((s.set_human_decision d).apply_human_decision).retry_context.quality_feedback =
        s.retry_context.quality_feedback.filter
          (fun issue => !d.selected_issues.contains issue.issue_type) ∧
      (∀ issue,
        issue ∈ ((s.set_human_decision d).apply_human_decision).retry_context.quality_feedback
          ↔ issue ∈ s.retry_context.quality_feedback ∧
              issue.issue_type ∉ d.selected_issues) ∧
      ((s.set_human_decision d).apply_human_decision).is_awaiting_human_review = false) := by
  rcases hd with h | h | h <;>
  · constructor
    · intro hsel
      refine ⟨?_, ?_, ?_⟩ <;>
        simp [AgentState.apply_human_decision, AgentState.set_human_decision,
          AgentState.clear_quality_feedback, AgentState.has_critical_issues_needing_review,
          AgentState.get_all_quality_issues_for_review, AgentState.is_awaiting_human_review,
          h, hsel]
    · intro hsel
      refine ⟨?_, ?_, ?_⟩
      · simp [AgentState.apply_human_decision, AgentState.set_human_decision, h, hsel]
      · intro issue
        simp [AgentState.apply_human_decision, AgentState.set_human_decision, h, hsel,
          List.mem_filter]
      · simp [AgentState.apply_human_decision, AgentState.set_human_decision,
          AgentState.is_awaiting_human_review, h, hsel]

/-- Witness for C10: with two recorded issues, selecting
`data_completeness` for a `retry_search` decision removes exactly that
issue. -/
theorem c10_witness :
    (demoSelectiveDecision.decision = "proceed" ∨
      demoSelectiveDecision.decision = "retry_search" ∨
      demoSelectiveDecision.decision = "retry_analysis") ∧
    demoSelectiveDecision.selected_issues ≠ [] ∧
    ((stateWithTwoIssues.set_human_decision
        demoSelectiveDecision).apply_human_decision).retry_context.quality_feedback
      = [demoCriticalIssue] := by
  refine ⟨by decide, by decide, ?_⟩
  have h := (c10_apply_human_decision stateWithTwoIssues demoSelectiveDecision
    (by decide)).2 (by decide)
  rw [h.1]; decide

/-- C7: market-position inference is ordered keyword matching over the
lowercased description: leader keywords first, then emerging, then niche,
with `Market Participant` as the fallback. -/
theorem c7_infer_market_position (c : CompetitorData) (s : AgentState) :
    (infer_market_position c s = "Market Leader" ↔
      ∃ t ∈ ["leading", "largest", "dominant", "#1"],
        strContains (pyLower c.description) t = true) ∧
    (infer_market_position c s = "Emerging Player" ↔
      ((¬ ∃ t ∈ ["leading", "largest", "dominant", "#1"],
          strContains (pyLower c.description) t = true) ∧
        ∃ t ∈ ["startup", "founded", "new", "emerging"],
          strContains (pyLower c.description) t = true)) ∧
    (infer_market_position c s = "Niche Player" ↔
      ((¬ ∃ t ∈ ["leading", "largest", "dominant", "#1"],
          strContains (pyLower c.description) t = true) ∧
        (¬ ∃ t ∈ ["startup", "founded", "new", "emerging"],
          strContains (pyLower c.description) t = true) ∧
        ∃ t ∈ ["specialist", "focused", "niche"],
          strContains (pyLower c.description) t = true)) ∧
    (infer_market_position c s = "Market Participant" ↔
      ((¬ ∃ t ∈ ["leading", "largest", "dominant", "#1"],
          strContains (pyLower c.description) t = true) ∧
        (¬ ∃ t ∈ ["startup", "founded", "new", "emerging"],
          strContains (pyLower c.description) t = true) ∧
        (¬ ∃ t ∈ ["specialist", "focused", "niche"],
          strContains (pyLower c.description) t = true))) := by
  have e1 : (∃ t ∈ ["leading", "largest", "dominant", "#1"],
      strContains (pyLower c.description) t = true) ↔
      (["leading", "largest", "dominant", "#1"].any
        (fun t => strContains (pyLower c.description) t) = true) := List.any_eq_true.symm
  have e2 : (∃ t ∈ ["startup", "founded", "new", "emerging"],
      strContains (pyLower c.description) t = true) ↔
      (["startup", "founded", "new", "emerging"].any
        (fun t => strContains (pyLower c.description) t) = true) := List.any_eq_true.symm
  have e3 : (∃ t ∈ ["specialist", "focused", "niche"],
      strContains (pyLower c.description) t = true) ↔
      (["specialist", "focused", "niche"].any
        (fun t => strContains (pyLower c.description) t) = true) := List.any_eq_true.symm
  by_cases h1 : (["leading", "largest", "dominant", "#1"].any
      (fun t => strContains (pyLower c.description) t) = true)
  · have hv : infer_market_position c s = "Market Leader" := by
      simp only [infer_market_position]
      rw [if_pos h1]
    rw [hv]
    refine ⟨iff_of_true rfl (e1.mpr h1), iff_of_false (by decide) ?_,
      iff_of_false (by decide) ?_, iff_of_false (by decide) ?_⟩
    · rintro ⟨hn, -⟩; exact hn (e1.mpr h1)
    · rintro ⟨hn, -, -⟩; exact hn (e1.mpr h1)
    · rintro ⟨hn, -, -⟩; exact hn (e1.mpr h1)
  · have hn1 : ¬ ∃ t ∈ ["leading", "largest", "dominant", "#1"],
        strContains (pyLower c.description) t = true := fun hg => h1 (e1.mp hg)
    by_cases h2 : (["startup", "founded", "new", "emerging"].any
        (fun t => strContains (pyLower c.description) t) = true)
    · have hv : infer_market_position c s = "Emerging Player" := by
        simp only [infer_market_position]
        rw [if_neg h1, if_pos h2]
      rw [hv]
      refine ⟨iff_of_false (by decide) (fun hg => h1 (e1.mp hg)),
        iff_of_true rfl ⟨hn1, e2.mpr h2⟩, iff_of_false (by decide) ?_,
        iff_of_false (by decide) ?_⟩
      · rintro ⟨-, hn2, -⟩; exact hn2 (e2.mpr h2)
      · rintro ⟨-, hn2, -⟩; exact hn2 (e2.mpr h2)
    · have hn2 : ¬ ∃ t ∈ ["startup", "founded", "new", "emerging"],
          strContains (pyLower c.description) t = true := fun hg => h2 (e2.mp hg)
      by_cases h3 : (["specialist", "focused", "niche"].any
          (fun t => strContains (pyLower c.description) t) = true)
      · have hv : infer_market_position c s = "Niche Player" := by
          simp only [infer_market_position]
          rw [if_neg h1, if_neg h2, if_pos h3]
        rw [hv]
        refine ⟨iff_of_false (by decide) (fun hg => h1 (e1.mp hg)),
          iff_of_false (by decide) ?_, iff_of_true rfl ⟨hn1, hn2, e3.mpr h3⟩,
          iff_of_false (by decide) ?_⟩
        · rintro ⟨-, hg⟩; exact hn2 hg
        · rintro ⟨-, -, hn3⟩; exact hn3 (e3.mpr h3)
      · have hn3 : ¬ ∃ t ∈ ["specialist", "focused", "niche"],
            strContains (pyLower c.description) t = true := fun hg => h3 (e3.mp hg)
        have hv : infer_market_position c s = "Market Participant" := by
          simp only [infer_market_position]
          rw [if_neg h1, if_neg h2, if_neg h3]
        rw [hv]
        refine ⟨iff_of_false (by decide) (fun hg => h1 (e1.mp hg)),
          iff_of_false (by decide) ?_, iff_of_false (by decide) ?_,
          iff_of_true rfl ⟨hn1, hn2, hn3⟩⟩
        · rintro ⟨-, hg⟩; exact hn2 hg
        · rintro ⟨-, -, hg⟩; exact hn3 hg

theorem lookup_dictSet_self (l : List (String × ℚ)) (k : String) (v : ℚ) :
    (dictSet l k v).lookup k = some v := by
  induction l with
  | nil => simp [dictSet, List.lookup]
  | cons p t ih =>
    by_cases h : p.1 = k
    · have hb : (p.1 == k) = true := beq_iff_eq.mpr h
      simp [dictSet, List.any_cons, hb, List.lookup, h]
    · have hb : (p.1 == k) = false := beq_eq_false_iff_ne.mpr h
      have hk : (k == p.1) = false := beq_eq_false_iff_ne.mpr (Ne.symm h)
      by_cases ht : (t.any fun q => q.1 == k) = true
      · have hmap : dictSet t k v = t.map (fun q => if q.1 = k then (k, v) else q) := by
          simp [dictSet, ht]
        have ih2 := ih
        rw [hmap] at ih2
        simp [dictSet, List.any_cons, hb, ht, List.lookup, hk, h, ih2]
      · have happ : dictSet t k v = t ++ [(k, v)] := by
          simp [dictSet, ht]
        have ih2 := ih
        rw [happ] at ih2
        simp [dictSet, List.any_cons, hb, ht, List.lookup, hk, h, ih2]

theorem lookup_map_replace_ne (t : List (String × ℚ)) (k k' : String) (v : ℚ)
    (h : k' ≠ k) :
    (t.map (fun q => if q.1 = k then (k, v) else q)).lookup k' = t.lookup k' := by
  induction t with
  | nil => rfl
  | cons q r ih =>
    by_cases hq : q.1 = k
    · have h2 : (k' == k) = false := beq_eq_false_iff_ne.mpr h
      have h1 : (k' == q.1) = false := by rw [hq]; exact h2
      rw [List.map_cons, if_pos hq]
      simp [List.lookup, h2, h1, ih]
    · rw [List.map_cons, if_neg hq]
      cases hc : (k' == q.1) <;> simp [List.lookup, hc, ih]

theorem lookup_dictSet_ne (l : List (String × ℚ)) (k k' : String) (v : ℚ)
    (h : k' ≠ k) : (dictSet l k v).lookup k' = l.lookup k' := by
  have hk : (k' == k) = false := beq_eq_false_iff_ne.mpr h
  induction l with
  | nil => simp [dictSet, List.lookup, hk]
  | cons p t ih =>
    by_cases hp : p.1 = k
    · have hb : (p.1 == k) = true := beq_iff_eq.mpr hp
      have hkp : (k' == p.1) = false := beq_eq_false_iff_ne.mpr (hp ▸ h)
      simp [dictSet, List.any_cons, hb, List.lookup, hk, hkp, hp,
        lookup_map_replace_ne t k k' v h]
    · have hb : (p.1 == k) = false := beq_eq_false_iff_ne.mpr hp
      by_cases ht : (t.any fun q => q.1 == k) = true
      · have hmap : dictSet t k v = t.map (fun q => if q.1 = k then (k, v) else q) := by
          simp [dictSet, ht]
        have ih2 := ih
        rw [hmap] at ih2
        by_cases hq : k' = p.1
        · have hqb : (k' == p.1) = true := beq_iff_eq.mpr hq
          simp [dictSet, List.any_cons, hb, ht, List.lookup, hqb, hp]
        · have hqb : (k' == p.1) = false := beq_eq_false_iff_ne.mpr hq
          simp [dictSet, List.any_cons, hb, ht, List.lookup, hqb, hp, ih2]
      · have happ : dictSet t k v = t ++ [(k, v)] := by
          simp [dictSet, ht]
        have ih2 := ih
        rw [happ] at ih2
        by_cases hq : k' = p.1
        · have hqb : (k' == p.1) = true := beq_iff_eq.mpr hq
          simp [dictSet, List.any_cons, hb, ht, List.lookup, hqb, hp]
        · have hqb : (k' == p.1) = false := beq_eq_false_iff_ne.mpr hq
          simp [dictSet, List.any_cons, hb, ht, List.lookup, hqb, hp, ih2]

theorem overall_quality_score_congr (c : CompetitorData) (s s' : AgentState)
    (h : s.analysis_context = s'.analysis_context) :
    overall_quality_score c s = overall_quality_score c s' := by
  simp [overall_quality_score, calculate_accuracy_score, calculate_relevance_score, h]

theorem sav_context (comps : List CompetitorData) (s : AgentState) :
    (score_and_validate_competitors comps s).2.analysis_context = s.analysis_context := by
  induction comps generalizing s with
  | nil => rfl
  | cons c cs ih =>
    simp only [score_and_validate_competitors]
    rw [ih]
    rfl

theorem sav_lookup_preserved (comps : List CompetitorData) (s : AgentState) (n : String)
    (h : n ∉ comps.map CompetitorData.name) :
    (score_and_validate_competitors comps s).2.quality_scores.lookup n
      = s.quality_scores.lookup n := by
  induction comps generalizing s with
  | nil => rfl
  | cons c cs ih =>
    simp only [List.map_cons, List.mem_cons, not_or] at h
    simp only [score_and_validate_competitors]
    rw [ih _ h.2]
    exact lookup_dictSet_ne _ _ _ _ h.1

theorem sav_kept (comps : List CompetitorData) (s : AgentState) :
    (score_and_validate_competitors comps s).1 =
      comps.filter (fun c => decide (min_quality_threshold ≤ overall_quality_score c s)) := by
  induction comps generalizing s with
  | nil => rfl
  | cons c cs ih =>
    simp only [score_and_validate_competitors, List.filter_cons]
    rw [ih]
    have hcg : cs.filter (fun c' => decide (min_quality_threshold ≤
        overall_quality_score c' (s.set_quality_score c.name (overall_quality_score c s))))
        = cs.filter (fun c' => decide (min_quality_threshold ≤ overall_quality_score c' s)) := by
      apply List.filter_congr
      intro c' _
      rw [overall_quality_score_congr c' (s.set_quality_score c.name (overall_quality_score c s)) s rfl]
    rw [hcg]
    by_cases hth : min_quality_threshold ≤ overall_quality_score c s <;> simp [hth]

theorem sav_lookup (comps : List CompetitorData) (s : AgentState)
    (hnd : (comps.map CompetitorData.name).Nodup) :
    ∀ c ∈ comps, (score_and_validate_competitors comps s).2.quality_scores.lookup c.name
      = some (overall_quality_score c s) := by
  induction comps generalizing s with
  | nil => intro c hc; cases hc
  | cons c0 cs ih =>
    intro c hc
    simp only [List.map_cons, List.nodup_cons] at hnd
    rcases List.mem_cons.mp hc with h | h
    · subst h
      simp only [score_and_validate_competitors]
      rw [sav_lookup_preserved cs _ c.name hnd.1]
      exact lookup_dictSet_self _ _ _
    · have hmem := ih (s.set_quality_score c0.name (overall_quality_score c0 s)) hnd.2 c h
      rw [overall_quality_score_congr c
        (s.set_quality_score c0.name (overall_quality_score c0 s)) s rfl] at hmem
      simp only [score_and_validate_competitors]
      exact hmem

/-- C6: `_score_and_validate_competitors` keeps exactly the competitors
whose weighted score reaches the 0.3 threshold, in input order; records
under every input competitor's name (kept or filtered out) the score
`0.3 * completeness + 0.25 * accuracy + 0.25 * relevance + 0.2 * recency`;
and each of the four component scores is capped at 1. -/
theorem c6_score_and_validate (comps : List CompetitorData) (s : AgentState)
    (hnd : (comps.map CompetitorData.name).Nodup) :
    ((score_and_validate_competitors comps s).1 =
      comps.filter (fun c => decide (min_quality_threshold ≤ overall_quality_score c s))) ∧
    (∀ c ∈ comps,
      (score_and_validate_competitors comps s).2.quality_scores.lookup c.name
        = some (overall_quality_score c s)) ∧
    (∀ c : CompetitorData,
      overall_quality_score c s =
        3/10 * calculate_completeness_score c + 1/4 * calculate_accuracy_score c s +
        1/4 * calculate_relevance_score c s + 1/5 * calculate_recency_score c) ∧
    (∀ c : CompetitorData,
      calculate_completeness_score c ≤ 1 ∧ calculate_accuracy_score c s ≤ 1 ∧
      calculate_relevance_score c s ≤ 1 ∧ calculate_recency_score c ≤ 1) := by
  refine ⟨sav_kept comps s, sav_lookup comps s hnd, ?_, ?_⟩
  · intro c
    simp only [overall_quality_score, quality_weights]
    ring
  · intro c
    exact ⟨min_le_right _ _, min_le_right _ _, min_le_right _ _, min_le_right _ _⟩

/-- Witness for C6 at two concrete competitors with distinct names. -/
theorem c6_witness :
    (([demoCompetitorA, demoCompetitorB].map CompetitorData.name).Nodup) ∧
    (score_and_validate_competitors [demoCompetitorA, demoCompetitorB]
        baseState).2.quality_scores.lookup "Globex"
      = some (overall_quality_score demoCompetitorA baseState) ∧
    (score_and_validate_competitors [demoCompetitorA, demoCompetitorB] baseState).1
      = [demoCompetitorA, demoCompetitorB].filter
          (fun c => decide (min_quality_threshold ≤ overall_quality_score c baseState)) := by
  have h := c6_score_and_validate [demoCompetitorA, demoCompetitorB] baseState (by decide)
  exact ⟨by decide, h.2.1 demoCompetitorA (by decide), h.1⟩

/-- C9 counterexample: a caller-supplied ttl of 0 is not the expiry used;
the key is stored with the default ttl 3600 instead, because the code
computes `ttl or self.default_ttl` and `0` is falsy in Python. -/
theorem c9_counterexample :
    (RedisService.set (α := Unit) 3600 (fun _ => Except.ok "payload")
        (fun _ _ _ => Except.ok true) "metrics" () (some 0)).2
      = [⟨"metrics", 3600, "payload"⟩] ∧
    ((3600 : Int) ≠ 0) := ⟨rfl, by decide⟩

/-- C9 (amended): every successful `RedisService.set` issues exactly one
SETEX carrying the effective ttl `ttl or default_ttl` (the caller value
when nonzero, the default when absent or 0); the default comes from
`DATA_CACHE_TTL_SECONDS` and is 3600 when unset; every exception path
returns `False` without raising; and `cache_agent_state` uses the
`agent_state:` key and an 86400-second fallback ttl instead. -/
theorem c9_redis_ttl {α : Type} (default_ttl : Int) (serialize : α → Except String String)
    (setex : String → Int → String → Except String Bool) (key : String) (value : α)
    (ttl : Option Int) (envValue : Option Int) (request_id : String) :
    (∀ sv, serialize value = .ok sv →
      (RedisService.set default_ttl serialize setex key value ttl).2
        = [⟨key, pyOrTtl ttl default_ttl, sv⟩]) ∧
    (∀ x : Int, x ≠ 0 → pyOrTtl (some x) default_ttl = x) ∧
    pyOrTtl none default_ttl = default_ttl ∧
    pyOrTtl (some 0) default_ttl = default_ttl ∧
    redis_default_ttl none = 3600 ∧
    redis_default_ttl envValue = envValue.getD 3600 ∧
    (∀ e, serialize value = .error e →
      RedisService.set default_ttl serialize setex key value ttl = (false, [])) ∧
    (∀ sv e, serialize value = .ok sv →
      setex key (pyOrTtl ttl default_ttl) sv = .error e →
      (RedisService.set default_ttl serialize setex key value ttl).1 = false) ∧
    (∀ sv, serialize value = .ok sv →
      (RedisService.cache_agent_state default_ttl serialize setex request_id value ttl).2
        = [⟨"agent_state:" ++ request_id, pyOrTtl ttl 86400, sv⟩]) := by
  have hne : pyOrTtl ttl 86400 ≠ 0 := by
    rcases ttl with _ | x
    · simp [pyOrTtl]
    · by_cases hx : x = 0 <;> simp [pyOrTtl, hx]
  refine ⟨?_, ?_, rfl, rfl, rfl, ?_, ?_, ?_, ?_⟩
  · intro sv hsv
    simp only [RedisService.set, hsv]
    rcases hx : setex key (pyOrTtl ttl default_ttl) sv with e | b <;> simp [hx]
  · intro x hx
    simp [pyOrTtl, hx]
  · rcases envValue with _ | v <;> rfl
  · intro e he
    simp [RedisService.set, he]
  · intro sv e hsv hx
    simp [RedisService.set, hsv, hx]
  · intro sv hsv
    simp only [RedisService.cache_agent_state, RedisService.set, hsv]
    have heff : pyOrTtl (some (pyOrTtl ttl 86400)) default_ttl = pyOrTtl ttl 86400 :=
      if_pos hne
    rw [heff]
    rcases hx : setex ("agent_state:" ++ request_id) (pyOrTtl ttl 86400) sv with e | b <;>
      simp [hx]

/-- Witness for C9: a concrete successful write with a nonzero caller ttl
stores exactly that ttl. -/
theorem c9_witness :
    (RedisService.set (α := Unit) 3600 (fun _ => Except.ok "payload")
        (fun _ _ _ => Except.ok true) "progress:req-1" () (some 300)).2
      = [⟨"progress:req-1", 300, "payload"⟩] := by
  have h := (c9_redis_ttl (α := Unit) 3600 (fun _ => Except.ok "payload")
    (fun _ _ _ => Except.ok true) "progress:req-1" () (some 300) none "req-1").1
    "payload" rfl
  rw [h]
  rfl

/-- C2: constructing the coordinator raises `TypeError` for every choice of
service and repository arguments, before any workflow is built: `__init__`
calls `SearchAgent` with two positional arguments where its signature
requires three. -/
theorem c2_coordinator_init_type_error {α : Type} (tavily_service redis_service llm_service
    analysis_repository report_repository : α) :
    coordinator_init tavily_service redis_service llm_service analysis_repository
        report_repository = .error "TypeError" ∧
    bindPositional searchAgentInitSig [tavily_service, redis_service] = .error "TypeError" ∧
    searchAgentInitSig.required.length = 3 := ⟨rfl, rfl, rfl⟩

theorem mem_setAdd {l : List String} {c x : String} (h : x ∈ setAdd l c) : x ∈ l ∨ x = c := by
  by_cases hc : c ∈ l
  · simp [setAdd, hc] at h
    exact Or.inl h
  · simp [setAdd, hc] at h
    rcases h with h | h
    · exact Or.inl h
    · exact Or.inr h

theorem foldl_addCompetitor_mem (cl : String) (names : List String) :
    ∀ acc, (∀ x ∈ acc, pyLower x ≠ cl ∧ 2 < x.length) →
      ∀ x ∈ names.foldl (addCompetitor cl) acc, pyLower x ≠ cl ∧ 2 < x.length := by
  induction names with
  | nil => intro acc hacc x hx; exact hacc x hx
  | cons c cs ih =>
    intro acc hacc x hx
    refine ih (addCompetitor cl acc c) ?_ x hx
    intro y hy
    by_cases hcond : pyLower c ≠ cl ∧ 2 < c.length
    · rw [addCompetitor, if_pos hcond] at hy
      rcases mem_setAdd hy with h | h
      · exact hacc y h
      · rw [h]; exact hcond
    · rw [addCompetitor, if_neg hcond] at hy
      exact hacc y hy

theorem go_filter (extract : List SearchResult → List String) (r : List SearchResult)
    (cl : String) (m : Nat) :
    ∀ idxs acc, (∀ x ∈ acc, pyLower x ≠ cl ∧ 2 < x.length) →
      ∀ x ∈ (extract_competitors_go extract r cl m idxs acc).1,
        pyLower x ≠ cl ∧ 2 < x.length := by
  intro idxs
  induction idxs with
  | nil => intro acc hacc x hx; exact hacc x hx
  | cons i is ih =>
    intro acc hacc x hx
    simp only [extract_competitors_go] at hx
    by_cases hth : 3 * m ≤ 2 * acc.length
    · rw [if_pos hth] at hx
      exact hacc x hx
    · rw [if_neg hth] at hx
      exact ih _ (foldl_addCompetitor_mem cl _ acc hacc) x hx

theorem go_trace_bound (extract : List SearchResult → List String) (r : List SearchResult)
    (cl : String) (m : Nat) :
    ∀ idxs acc, ∀ p ∈ (extract_competitors_go extract r cl m idxs acc).2,
      2 * p.2 < 3 * m := by
  intro idxs
  induction idxs with
  | nil => intro acc p hp; simp [extract_competitors_go] at hp
  | cons i is ih =>
    intro acc p hp
    simp only [extract_competitors_go] at hp
    by_cases hth : 3 * m ≤ 2 * acc.length
    · rw [if_pos hth] at hp
      simp at hp
    · rw [if_neg hth] at hp
      rcases List.mem_cons.mp hp with h | h
      · rw [h]
        omega
      · exact ih _ p h

theorem go_early_stop (extract : List SearchResult → List String) (r : List SearchResult)
    (cl : String) (m : Nat) :
    ∀ idxs acc,
      (extract_competitors_go extract r cl m idxs acc).2.length < idxs.length →
      3 * m ≤ 2 * (extract_competitors_go extract r cl m idxs acc).1.length := by
  intro idxs
  induction idxs with
  | nil => intro acc h; simp [extract_competitors_go] at h
  | cons i is ih =>
    intro acc h
    simp only [extract_competitors_go] at h ⊢
    by_cases hth : 3 * m ≤ 2 * acc.length
    · rw [if_pos hth] at h ⊢
      exact hth
    · rw [if_neg hth] at h ⊢
      simp only [List.length_cons, Nat.add_lt_add_iff_right] at h
      exact ih _ h

theorem go_trace_map (extract : List SearchResult → List String) (r : List SearchResult)
    (cl : String) (m : Nat) :
    ∀ idxs acc,
      (extract_competitors_go extract r cl m idxs acc).2.map Prod.fst =
        (idxs.map (fun i => (r.drop i).take 3)).take
          (extract_competitors_go extract r cl m idxs acc).2.length := by
  intro idxs
  induction idxs with
  | nil => intro acc; simp [extract_competitors_go]
  | cons i is ih =>
    intro acc
    simp only [extract_competitors_go]
    by_cases hth : 3 * m ≤ 2 * acc.length
    · rw [if_pos hth]
      simp
    · rw [if_neg hth]
      simp only [List.map_cons, List.length_cons, List.take_succ_cons]
      rw [ih]

theorem go_batches_congr (extract : List SearchResult → List String)
    (r1 r2 : List SearchResult) (cl : String) (m : Nat) :
    ∀ idxs, (∀ i ∈ idxs, (r1.drop i).take 3 = (r2.drop i).take 3) →
      ∀ acc, extract_competitors_go extract r1 cl m idxs acc =
        extract_competitors_go extract r2 cl m idxs acc := by
  intro idxs
  induction idxs with
  | nil => intro _ acc; rfl
  | cons i is ih =>
    intro h acc
    have hi : (r1.drop i).take 3 = (r2.drop i).take 3 := h i (List.mem_cons_self i is)
    have his : ∀ j ∈ is, (r1.drop j).take 3 = (r2.drop j).take 3 :=
      fun j hj => h j (List.mem_cons_of_mem i hj)
    simp only [extract_competitors_go]
    by_cases hth : 3 * m ≤ 2 * acc.length
    · rw [if_pos hth, if_pos hth]
    · rw [if_neg hth, if_neg hth, hi, ih his]

theorem mem_rangeStep3 {n i : Nat} (h : i ∈ rangeStep3 n) : ∃ j, i = 3 * j ∧ 3 * j < n := by
  simp only [rangeStep3, List.mem_map, List.mem_range] at h
  rcases h with ⟨j, hj, rfl⟩
  exact ⟨j, rfl, by omega⟩

theorem slice_agree (results : List SearchResult) (maxC : Nat) :
    ∀ i ∈ rangeStep3 (min results.length (maxC * 3)),
      ((results.take (min results.length (maxC * 3))).drop i).take 3
        = (results.drop i).take 3 := by
  intro i hi
  rcases mem_rangeStep3 hi with ⟨j, rfl, hj⟩
  rcases le_total results.length (maxC * 3) with hle | hle
  · rw [min_eq_left hle, List.take_length]
  · rw [min_eq_right hle] at hj ⊢
    rw [List.drop_take, List.take_take]
    congr 1
    omega

theorem rangeStep3_map_slice {α : Type} : ∀ L : List α,
    (rangeStep3 L.length).map (fun i => (L.drop i).take 3) = chunks3 L
  | [] => by simp [rangeStep3, chunks3]
  | a :: rest => by
    have hrec := rangeStep3_map_slice (rest.drop 2)
    have hcount : (rest.length + 1 + 2) / 3 = ((rest.drop 2).length + 2) / 3 + 1 := by
      simp only [List.length_drop]
      omega
    rw [chunks3, ← hrec]
    simp only [rangeStep3, List.length_cons, hcount, List.range_succ_eq_map, List.map_cons,
      List.map_map, Function.comp_apply, Function.comp_def]
    refine congrArg₂ List.cons rfl ?_
    apply List.map_congr_left
    intro j _
    rw [show 3 * Nat.succ j = 3 * j + 2 + 1 from by omega, List.drop_succ_cons,
      List.drop_drop]
    congr 2
    omega
termination_by L => L.length
decreasing_by simp only [List.length_drop, List.length_cons]; omega

theorem extract_batches_eq_chunks (results : List SearchResult) (maxC : Nat) :
    (rangeStep3 (min results.length (maxC * 3))).map (fun i => (results.drop i).take 3)
      = chunks3 (results.take (min results.length (maxC * 3))) := by
  have hlen : (results.take (min results.length (maxC * 3))).length
      = min results.length (maxC * 3) := by
    rw [List.length_take]
    exact min_eq_left (min_le_left _ _)
  have h1 : (rangeStep3 (min results.length (maxC * 3))).map
      (fun i => (results.drop i).take 3)
      = (rangeStep3 (min results.length (maxC * 3))).map
        (fun i => ((results.take (min results.length (maxC * 3))).drop i).take 3) :=
    List.map_congr_left (fun i hi => (slice_agree results maxC i hi).symm)
  rw [h1]
  have hfin := rangeStep3_map_slice (results.take (min results.length (maxC * 3)))
  rw [hlen] at hfin
  exact hfin

/-- C8: `_extract_competitors_from_results` reads only the first
`min(len(results), max_competitors * 3)` results; the batches handed to the
LLM are the consecutive 3-chunks of that segment; a batch is issued only
while the accumulated set holds fewer than `1.5 * max_competitors` names,
and stopping before the last chunk happens only once that bound is reached;
and no returned name equals the client company (case-insensitively) or has
length 2 or less. -/
theorem c8_extract_competitors (extract : List SearchResult → List String)
    (results : List SearchResult) (context : AnalysisContext) :
    (extract_competitors_from_results extract results context =
      extract_competitors_from_results extract
        (results.take (min results.length (context.max_competitors * 3))) context) ∧
    ((extract_competitors_from_results extract results context).2.map Prod.fst =
      (chunks3 (results.take (min results.length (context.max_competitors * 3)))).take
        (extract_competitors_from_results extract results context).2.length) ∧
    (∀ p ∈ (extract_competitors_from_results extract results context).2,
      2 * p.2 < 3 * context.max_competitors) ∧
    ((extract_competitors_from_results extract results context).2.length <
        (chunks3 (results.take (min results.length (context.max_competitors * 3)))).length →
      3 * context.max_competitors ≤
        2 * (extract_competitors_from_results extract results context).1.length) ∧
    (∀ name ∈ (extract_competitors_from_results extract results context).1,
      pyLower name ≠ pyLower context.client_company ∧ 2 < name.length) := by
  set maxC := context.max_competitors with hmaxC
  set n := min results.length (maxC * 3) with hn
  have hlen : (results.take n).length = n := by
    rw [List.length_take]
    exact min_eq_left (min_le_left _ _)
  have hn2 : min (results.take n).length (maxC * 3) = n := by
    rw [hlen]
    exact min_eq_left (min_le_right _ _)
  have hchunklen : (chunks3 (results.take n)).length = (rangeStep3 n).length := by
    rw [← extract_batches_eq_chunks results maxC, List.length_map]
  refine ⟨?_, ?_, ?_, ?_, ?_⟩
  · simp only [extract_competitors_from_results, hn2, ← hn]
    exact go_batches_congr extract results (results.take n)
      (pyLower context.client_company) maxC (rangeStep3 n)
      (fun i hi => (slice_agree results maxC i hi).symm) []
  · simp only [extract_competitors_from_results, ← hn]
    rw [go_trace_map extract results (pyLower context.client_company) maxC (rangeStep3 n) []]
    rw [extract_batches_eq_chunks results maxC]
  · simp only [extract_competitors_from_results, ← hn]
    exact go_trace_bound extract results (pyLower context.client_company) maxC (rangeStep3 n) []
  · simp only [extract_competitors_from_results, ← hn]
    rw [hchunklen]
    exact go_early_stop extract results (pyLower context.client_company) maxC (rangeStep3 n) []
  · simp only [extract_competitors_from_results, ← hn]
    exact go_filter extract results (pyLower context.client_company) maxC (rangeStep3 n) []
      (fun x hx => absurd hx (List.not_mem_nil x))
